import Mathlib

/-!
Shallow embedding of `src/app/parse.py`, a Selenium-based scraper that
harvests product cards from a paginated e-commerce demo site and writes
CSV files.

Modelling conventions:
* Python strings are Lean `String`s; character-level reasoning is done on
  `List Char` (the `.data` of a string).
* Python's builtin `float(s)` and `int(s)` conversions are embedded as
  `pyFloat` / `pyInt` returning `Option` (`none` = `ValueError`).  The
  embedding covers the decimal grammar (optional sign, digits, at most one
  dot): scientific notation, `inf`/`nan`, underscores and surrounding
  whitespace never arise from the inputs this program feeds them and are
  modelled as the rejecting branch alongside every other non-digit
  character.
* Python exponent-free `str(float)` output is modelled by `PyDecimal.str`,
  and `str(int)` for a natural number by `natRepr`.
* The browser session is an abstract page-state type `σ` equipped with the
  capabilities the code uses (`PageEnv`): list the elements of class
  "thumbnail", locate the "load more" control, click it.
* The unbounded `while` loop in `execute_more_pagination_script` is
  embedded fuel-indexed; `none` means the fuel ran out, so
  "`= none` for every fuel" states non-termination.
-/

/-- The character `'0' + d`, used to print the decimal digit `d < 10`. -/
def digitChar (d : Nat) : Char := Char.ofNat (48 + d)

/-- `c` is one of `'0'..'9'`. -/
def isDigit (c : Char) : Bool := 48 ≤ c.toNat && c.toNat ≤ 57

/-- Numeric value of a digit character. -/
def digVal (c : Char) : Nat := c.toNat - 48

/-- Decimal digits of `n` (most significant first) prepended to `acc`;
the accumulator form mirrors how repeated division by 10 produces the
digits of Python's `str(n)`. -/
def natDigitsAux (n : Nat) (acc : List Char) : List Char :=
  if h : n < 10 then digitChar n :: acc
  else natDigitsAux (n / 10) (digitChar (n % 10) :: acc)
termination_by n
decreasing_by exact Nat.div_lt_self (by omega) (by omega)

/-- Decimal digit characters of `n`, most significant first. -/
def natDigits (n : Nat) : List Char := natDigitsAux n []

/-- Embedding of Python `str(n)` for a non-negative integer `n`. -/
def natRepr (n : Nat) : String := ⟨natDigits n⟩

/-- Value of a digit-character string read as a base-10 numeral. -/
def digitsToNat (cs : List Char) : Nat :=
  cs.foldl (fun a c => 10 * a + digVal c) 0

theorem digVal_digitChar {d : Nat} (h : d < 10) : digVal (digitChar d) = d := by
  interval_cases d <;> decide

theorem isDigit_digitChar {d : Nat} (h : d < 10) : isDigit (digitChar d) = true := by
  interval_cases d <;> decide

theorem natDigitsAux_acc (n : Nat) (acc : List Char) :
    natDigitsAux n acc = natDigits n ++ acc := by
  induction n using Nat.strong_induction_on generalizing acc with
  | _ n ih =>
    unfold natDigits natDigitsAux
    by_cases h : n < 10
    · simp [h]
    · have hlt : n / 10 < n := Nat.div_lt_self (by omega) (by omega)
      simp only [h, dite_false]
      rw [ih _ hlt, ih (n / 10) hlt [digitChar (n % 10)]]
      simp

theorem natDigits_ne_nil (n : Nat) : natDigits n ≠ [] := by
  unfold natDigits natDigitsAux
  by_cases h : n < 10
  · simp [h]
  · simp only [h, dite_false]
    rw [natDigitsAux_acc]
    simp

theorem natDigits_all_digit (n : Nat) :
    ∀ c ∈ natDigits n, isDigit c = true := by
  induction n using Nat.strong_induction_on with
  | _ n ih =>
    intro c hc
    unfold natDigits natDigitsAux at hc
    by_cases h : n < 10
    · simp [h] at hc
      subst hc
      exact isDigit_digitChar h
    · have hlt : n / 10 < n := Nat.div_lt_self (by omega) (by omega)
      simp only [h, dite_false] at hc
      rw [natDigitsAux_acc] at hc
      rcases List.mem_append.mp hc with h1 | h1
      · exact ih _ hlt c h1
      · simp at h1
        subst h1
        exact isDigit_digitChar (Nat.mod_lt _ (by omega))

theorem foldl_natDigits (n a : Nat) :
    (natDigits n).foldl (fun x c => 10 * x + digVal c) a
      = a * 10 ^ (natDigits n).length + n := by
  induction n using Nat.strong_induction_on generalizing a with
  | _ n ih =>
    by_cases h : n < 10
    · have hdig : natDigits n = [digitChar n] := by
        unfold natDigits natDigitsAux; simp [h]
      rw [hdig]
      simp [List.foldl, digVal_digitChar h]
      ring
    · have hlt : n / 10 < n := Nat.div_lt_self (by omega) (by omega)
      have hdig : natDigits n = natDigits (n / 10) ++ [digitChar (n % 10)] := by
        conv_lhs => unfold natDigits natDigitsAux
        simp only [h, dite_false]
        rw [natDigitsAux_acc]
      rw [hdig, List.foldl_append, ih _ hlt]
      simp [List.foldl, digVal_digitChar (Nat.mod_lt n (by omega)), pow_succ]
      have := Nat.div_add_mod n 10
      ring_nf
      omega

theorem digitsToNat_natDigits (n : Nat) : digitsToNat (natDigits n) = n := by
  unfold digitsToNat
  rw [foldl_natDigits]
  simp

/-- Magnitude part of Python `int(s)`: a non-empty all-digit string, read in
base 10; anything else raises `ValueError` (`none`). -/
def pyIntMag (cs : List Char) : Option Nat :=
  if cs ≠ [] ∧ cs.all isDigit then some (digitsToNat cs) else none

/-- Embedding of Python `int(s)` on the character list of `s`: an optional
sign followed by digits. -/
def pyInt (cs : List Char) : Option Int :=
  match cs with
  | [] => none
  | c :: rest =>
    if c = '-' then (pyIntMag rest).map (fun n => -(n : Int))
    else if c = '+' then (pyIntMag rest).map (fun n => (n : Int))
    else (pyIntMag (c :: rest)).map (fun n => (n : Int))

/-- Value contributed by the fractional digit string `cs` of a decimal
literal: `digits / 10 ^ length`. -/
def fracVal (cs : List Char) : ℚ := (digitsToNat cs : ℚ) / 10 ^ cs.length

/-- Core of unsigned Python `float` parsing, split into the maximal leading
digit run `ip` and the remainder `rest`: `rest` empty means a plain integer
literal; otherwise `rest` must be a dot followed by digits, and at least
one digit must be present overall. -/
def pyFloatCore (ip rest : List Char) : Option ℚ :=
  match rest with
  | [] => if ip.isEmpty then none else some ((digitsToNat ip : ℚ))
  | c :: frac =>
    if c = '.' ∧ frac.all isDigit ∧ (¬ ip.isEmpty ∨ ¬ frac.isEmpty) then
      some ((digitsToNat ip : ℚ) + fracVal frac)
    else none

/-- Unsigned part of Python `float(s)`. -/
def pyFloatMag (cs : List Char) : Option ℚ :=
  pyFloatCore (cs.takeWhile isDigit) (cs.dropWhile isDigit)

/-- Embedding of Python `float(s)` on the character list of `s`: optional
sign, then digits with at most one decimal point. -/
def pyFloat (cs : List Char) : Option ℚ :=
  match cs with
  | [] => none
  | c :: rest =>
    if c = '-' then (pyFloatMag rest).map (fun q => -q)
    else if c = '+' then pyFloatMag rest
    else pyFloatMag (c :: rest)

/-- Embedding of Python `s.split(" ")`: split at every single space,
keeping empty fragments, like the explicit-separator form of `split`. -/
def splitOnSpace (cs : List Char) : List (List Char) :=
  match cs with
  | [] => [[]]
  | c :: rest =>
    if c = ' ' then [] :: splitOnSpace rest
    else
      match splitOnSpace rest with
      | [] => [[c]]
      | t :: ts => (c :: t) :: ts

/-- The product record (`@dataclass Product` in the source), field for
field in declared order.  `price` is the result of Python `float`
(modelled as `ℚ`), `rating` of `len(...)`, `num_of_reviews` of `int`. -/
structure Product where
  title : String
  description : String
  price : ℚ
  rating : Nat
  num_of_reviews : Int
deriving DecidableEq, Repr

/-- One rendered product-card element, holding the outcome of each DOM
lookup `get_product` performs on it.  A `none` models the sub-element not
being found (`NoSuchElementException`; for `title`, also a missing
attribute), which aborts the parse. -/
structure CardElem where
  titleAttr : Option String
  descriptionText : Option String
  priceText : Option String
  starCount : Nat
  ratingsText : Option String
deriving DecidableEq, Repr

/-- Price step of `get_product`:
`float(card.find_element(...).text.replace("$", ""))`.  Python's
`replace("$", "")` deletes every occurrence of `'$'`, embedded as a
filter. -/
def price_text_to_float (t : String) : Option ℚ :=
  pyFloat (t.data.filter (fun c => c ≠ '$'))

/-- Review-count step of `get_product`:
`int(card.find_element(...).text.split(" ")[0])`.  `split(" ")` never
returns an empty list, so the `[]` branch (Python `IndexError`) is
unreachable. -/
def ratings_text_to_int (t : String) : Option Int :=
  match splitOnSpace t.data with
  | [] => none
  | tok :: _ => pyInt tok

/-- Embedding of `get_product`: extract the five fields from a card in
source order; any failed lookup or conversion aborts (`none`). -/
def get_product (product_card : CardElem) : Option Product := do
  let title ← product_card.titleAttr
  let description ← product_card.descriptionText
  let priceText ← product_card.priceText
  let price ← price_text_to_float priceText
  let rating := product_card.starCount
  let ratingsText ← product_card.ratingsText
  let num_of_reviews ← ratings_text_to_int ratingsText
  pure ⟨title, description, price, rating, num_of_reviews⟩

/-- The page capabilities the scraper uses on the live browser session:
the rendered elements of class "thumbnail" (each abstracted to the card
data `get_product` reads), whether the "load more" control of class
"ecomerce-items-scroll-more" is locatable (`find_element` raising
`NoSuchElementException` when it is not), and the page state after the
injected `arguments[0].click()` script. -/
structure PageEnv (σ : Type) where
  cards : σ → List CardElem
  hasButton : σ → Bool
  clickMore : σ → σ

/-- `len(driver.find_elements(By.CLASS_NAME, "thumbnail"))`. -/
def cardCount {σ : Type} (E : PageEnv σ) (s : σ) : Nat := (E.cards s).length

/-- Embedding of `execute_more_pagination_script`'s `while` loop, indexed
by fuel: while fewer than `max_products` cards are rendered, locate the
"load more" control and click it, breaking (without error) when it is not
found.  Returns the final page state and the number of clicks performed
(the source returns `None`; the click count instruments the loop for the
stated properties).  `none` means the fuel ran out: the source loop has no
iteration cap, so divergence is exactly `none` at every fuel. -/
def execute_more_pagination_script {σ : Type} (E : PageEnv σ)
    (max_products : Nat) : Nat → σ → Option (σ × Nat)
  | 0, _ => none
  | fuel + 1, s =>
    if cardCount E s < max_products then
      if E.hasButton s then
        (execute_more_pagination_script E max_products fuel (E.clickMore s)).map
          (fun r => (r.1, r.2 + 1))
      else some (s, 0)
    else some (s, 0)

/-- The list comprehension `[get_product(card) for card in products]`:
apply `get_product` to each card left to right, aborting on the first
failure (a raised exception ends the comprehension and the run). -/
def parseAllCards : List CardElem → Option (List Product)
  | [] => some []
  | card :: rest => do
    let p ← get_product card
    let ps ← parseAllCards rest
    pure (p :: ps)

/-- Embedding of `parse_product_card`: when `max_products` is truthy
(non-zero), run the pagination loop first; then map `get_product` over the
rendered cards in on-page order.  `none` propagates either the loop's
divergence or a card-parse failure, both of which abort the run. -/
def parse_product_card {σ : Type} (E : PageEnv σ) (fuel : Nat) (s : σ)
    (max_products : Nat := 3) : Option (List Product) :=
  let paged : Option σ :=
    if max_products ≠ 0 then
      (execute_more_pagination_script E max_products fuel s).map Prod.fst
    else some s
  paged.bind fun s2 => parseAllCards (E.cards s2)

/-- `[field.name for field in fields(Product)]`: the dataclass field names
in declared order. -/
def product_fieldnames : List String :=
  ["title", "description", "price", "rating", "num_of_reviews"]

/-- Minimal quoting of one CSV cell, as Python's `csv` default dialect
(`QUOTE_MINIMAL`) does: a cell containing a delimiter, quote or newline is
wrapped in quotes with inner quotes doubled; any other cell is written
verbatim. -/
def csvCell (s : String) : String :=
  if s.data.any (fun c => c = ',' ∨ c = '"' ∨ c = '\n' ∨ c = '\r') then
    ⟨'"' :: (s.data.flatMap fun c => if c = '"' then ['"', '"'] else [c]) ++ ['"']⟩
  else s

/-- One CSV line: cells quoted as needed and joined by commas. -/
def csvLine (cells : List String) : String :=
  String.intercalate "," (cells.map csvCell)

/-- Embedding of Python `str(z)` for an `int`. -/
def intRepr (z : Int) : String :=
  if z < 0 then "-" ++ natRepr z.natAbs else natRepr z.natAbs

/-- The cell values `csv.DictWriter.writerow(asdict(obj))` serializes for
one product, in the declared field order.  Numeric cells go through
Python `str`; `str(float)` (shortest-round-trip formatting of a binary
float) is kept abstract as the parameter `floatStr`. -/
def productValues (floatStr : ℚ → String) (p : Product) : List String :=
  [p.title, p.description, floatStr p.price, natRepr p.rating,
    intRepr p.num_of_reviews]

/-- Embedding of `write_to_csv` as the list of lines of the produced file
(the source terminates each line with CRLF; rows are modelled as lines):
`writeheader()` writes the field names, then one `writerow` per product in
list order. -/
def write_to_csv (floatStr : ℚ → String) (products : List Product) :
    List String :=
  csvLine product_fieldnames :: products.map (fun p => csvLine (productValues floatStr p))

/-- `BASE_URL` from the source. -/
def BASE_URL : String := "https://webscraper.io/"

/-- `HOME_URL = urljoin(BASE_URL, "test-sites/e-commerce/more/")`: joining
a relative path onto the bare host appends it. -/
def HOME_URL : String := BASE_URL ++ "test-sites/e-commerce/more/"

/-- One observable browser-level action of the run orchestrator. -/
inductive BrowserEvent where
  /-- `driver.get(url)` -/
  | get (url : String)
  /-- `driver.find_element(By.LINK_TEXT, text).click()` -/
  | clickLink (text : String)
  /-- `parse_product_card(driver, target)` (default target 3) -/
  | harvest (target : Nat)
  /-- `write_to_csv(records, filename)` -/
  | writeCsv (filename : String)
deriving DecidableEq, Repr

/-- Embedding of `get_all_products` as its straight-line trace of browser
actions, one group of events per source statement in source order; each
`write_to_csv(parse_product_card(driver, t), f)` call evaluates its
argument first, so it contributes `harvest t` then `writeCsv f`. -/
def get_all_products : List BrowserEvent :=
  [.get HOME_URL]
  ++ [.harvest 3, .writeCsv "home.csv"]
  ++ [.clickLink "Computers"]
  ++ [.harvest 3, .writeCsv "computers.csv"]
  ++ [.clickLink "Laptops"]
  ++ [.harvest 117, .writeCsv "laptops.csv"]
  ++ [.clickLink "Tablets"]
  ++ [.harvest 21, .writeCsv "tablets.csv"]
  ++ [.clickLink "Phones"]
  ++ [.harvest 3, .writeCsv "phones.csv"]
  ++ [.clickLink "Touch"]
  ++ [.harvest 9, .writeCsv "touch.csv"]

/-- Modelled from the spec: the six-category table of §4.6 — for each
category, the link text clicked to reach it (`none` for the start page),
its target count, and its output file.  This is the spec side of the
orchestrator claim, to be compared with `get_all_products`. -/
def spec_categories : List (Option String × Nat × String) :=
  [(none, 3, "home.csv"),
   (some "Computers", 3, "computers.csv"),
   (some "Laptops", 117, "laptops.csv"),
   (some "Tablets", 21, "tablets.csv"),
   (some "Phones", 3, "phones.csv"),
   (some "Touch", 9, "touch.csv")]

/-- Modelled from the spec: the events one category of §4.6 contributes —
its navigation click (when it has one), unconditionally followed by its
harvest and its write. -/
def spec_categoryEvents : Option String × Nat × String → List BrowserEvent
  | (nav, target, file) =>
    (match nav with
     | none => []
     | some text => [.clickLink text])
    ++ [.harvest target, .writeCsv file]

/-- A non-negative decimal number together with its exponent-free Python
`str` rendering: an integer part and a list of fractional digits (an empty
list renders as the single fractional digit `0`, as `str` of a whole float
does). -/
structure PyDecimal where
  intPart : Nat
  fracDigits : List (Fin 10)

/-- The fractional digit characters `str` prints for `d`. -/
def PyDecimal.fracChars (d : PyDecimal) : List Char :=
  if d.fracDigits.isEmpty then ['0']
  else d.fracDigits.map (fun k => digitChar k.val)

/-- `str(d)`: integer part, dot, fractional digits. -/
def PyDecimal.str (d : PyDecimal) : String :=
  ⟨natDigits d.intPart ++ '.' :: d.fracChars⟩

/-- The rational value of `d`. -/
def PyDecimal.val (d : PyDecimal) : ℚ :=
  (d.intPart : ℚ) + fracVal d.fracChars

theorem isDigit_ne {c x : Char} (h : isDigit c = true) (hx : isDigit x = false) :
    c ≠ x := by
  intro he
  rw [he, hx] at h
  exact Bool.noConfusion h

theorem takeWhile_dropWhile_middle {α : Type} (p : α → Bool) (l₁ l₂ : List α)
    (c : α) (h1 : ∀ x ∈ l₁, p x = true) (hc : p c = false) :
    (l₁ ++ c :: l₂).takeWhile p = l₁ ∧ (l₁ ++ c :: l₂).dropWhile p = c :: l₂ := by
  induction l₁ with
  | nil => simp [List.takeWhile, List.dropWhile, hc]
  | cons a t ih =>
    have ha : p a = true := h1 a (List.mem_cons_self a t)
    have iht := ih (fun x hx => h1 x (List.mem_cons_of_mem a hx))
    simp only [List.cons_append, List.takeWhile, List.dropWhile, ha,
      List.append_eq]
    exact ⟨by rw [iht.1], iht.2⟩

theorem filter_eq_self_of_ne_dollar (l : List Char) (h : ∀ c ∈ l, c ≠ '$') :
    l.filter (fun c => c ≠ '$') = l := by
  rw [List.filter_eq_self]
  intro a ha
  simpa using h a ha

theorem splitOnSpace_append (l₁ l₂ : List Char) (h : ∀ c ∈ l₁, c ≠ ' ') :
    splitOnSpace (l₁ ++ ' ' :: l₂) = l₁ :: splitOnSpace l₂ := by
  induction l₁ with
  | nil => simp [splitOnSpace]
  | cons a t ih =>
    have ha : a ≠ ' ' := h a (List.mem_cons_self a t)
    have iht := ih (fun x hx => h x (List.mem_cons_of_mem a hx))
    simp only [List.cons_append, splitOnSpace, ha, if_false, List.append_eq,
      iht]

theorem pyInt_all_digits (cs : List Char) (hne : cs ≠ [])
    (hdig : ∀ c ∈ cs, isDigit c = true) :
    pyInt cs = some ((digitsToNat cs : Nat) : Int) := by
  match cs, hne with
  | c :: rest, _ =>
    have hc : isDigit c = true := hdig c (List.mem_cons_self c rest)
    have hminus : c ≠ '-' := isDigit_ne hc (by decide)
    have hplus : c ≠ '+' := isDigit_ne hc (by decide)
    simp only [pyInt, hminus, hplus, if_false]
    unfold pyIntMag
    rw [if_pos ⟨List.cons_ne_nil c rest, List.all_eq_true.mpr hdig⟩]
    simp

theorem pyFloatCore_cons (ip : List Char) (c : Char) (frac : List Char) :
    pyFloatCore ip (c :: frac)
      = if c = '.' ∧ frac.all isDigit ∧ (¬ ip.isEmpty ∨ ¬ frac.isEmpty) then
          some ((digitsToNat ip : ℚ) + fracVal frac)
        else none := rfl

theorem pyFloat_digits_dot_digits (ip frac : List Char) (hne : ip ≠ [])
    (hip : ∀ c ∈ ip, isDigit c = true) (hfrac : ∀ c ∈ frac, isDigit c = true) :
    pyFloat (ip ++ '.' :: frac) = some ((digitsToNat ip : ℚ) + fracVal frac) := by
  have hdot : isDigit '.' = false := by decide
  have hsplit := takeWhile_dropWhile_middle isDigit ip frac '.' hip hdot
  match ip, hne with
  | c :: rest, _ =>
    have hc : isDigit c = true := hip c (List.mem_cons_self c rest)
    have hminus : c ≠ '-' := isDigit_ne hc (by decide)
    have hplus : c ≠ '+' := isDigit_ne hc (by decide)
    have harr : (c :: rest) ++ '.' :: frac = c :: (rest ++ '.' :: frac) := by simp
    rw [harr]
    simp only [pyFloat, hminus, hplus, if_false]
    rw [← harr]
    unfold pyFloatMag
    rw [hsplit.1, hsplit.2]
    rw [pyFloatCore_cons,
      if_pos ⟨rfl, List.all_eq_true.mpr hfrac, Or.inl (by simp)⟩]

theorem fracChars_all_digit (d : PyDecimal) :
    ∀ c ∈ d.fracChars, isDigit c = true := by
  intro c hc
  unfold PyDecimal.fracChars at hc
  by_cases h : d.fracDigits.isEmpty
  · rw [if_pos h] at hc
    simp at hc
    subst hc
    decide
  · rw [if_neg h] at hc
    obtain ⟨k, _, hk⟩ := List.mem_map.mp hc
    subst hk
    exact isDigit_digitChar k.isLt

theorem parseAllCards_length :
    ∀ (l : List CardElem) (l2 : List Product),
      parseAllCards l = some l2 → l2.length = l.length := by
  intro l
  induction l with
  | nil =>
    intro l2 h
    simp [parseAllCards] at h
    simp [← h]
  | cons a t ih =>
    intro l2 h
    unfold parseAllCards at h
    cases hfa : get_product a with
    | none => rw [hfa] at h; simp at h
    | some b =>
      rw [hfa] at h
      cases hmt : parseAllCards t with
      | none => rw [hmt] at h; simp at h
      | some bs =>
        rw [hmt] at h
        simp at h
        rw [← h]
        simp [ih bs hmt]

/-- Claim C1, refuted at its own example: the price text `"$1,299.99"`
does not convert to `1299.99` — only the dollar sign is stripped, the
thousands-separator comma remains, and `float` rejects it
(`ValueError`, modelled as `none`). -/
theorem price_thousands_separator_rejected :
    price_text_to_float "$1,299.99" ≠ some ((129999 : ℚ) / 100) := by decide

/-- Claim C1 as amended: for a price text with a leading currency symbol
and no thousands separator, such as `"$1299.99"`, the price step of
`get_product` strips the symbol and converts the remainder to `1299.99`;
with a thousands separator, as in `"$1,299.99"`, the conversion fails. -/
theorem price_parse_plain_decimal_ok_separator_fails :
    price_text_to_float "$1299.99" = some ((129999 : ℚ) / 100)
      ∧ price_text_to_float "$1,299.99" = none := by
  constructor
  · have hfil : "$1299.99".data.filter (fun c => c ≠ '$')
        = ['1', '2', '9', '9'] ++ '.' :: ['9', '9'] := by decide
    have h1299 : digitsToNat ['1', '2', '9', '9'] = 1299 := by decide
    have h99 : digitsToNat ['9', '9'] = 99 := by decide
    unfold price_text_to_float
    rw [hfil,
      pyFloat_digits_dot_digits _ _ (by decide) (by decide) (by decide),
      h1299]
    unfold fracVal
    rw [h99]
    norm_num
  · decide

/-- Claim C2: for every non-negative decimal number `d`, formatting it as
`"$" + str(d)` and applying the price-parsing step of `get_product`
(strip the currency symbol, convert to a decimal number) recovers exactly
the value of `d`. -/
theorem price_format_parse_roundtrip (d : PyDecimal) :
    price_text_to_float ("$" ++ d.str) = some d.val := by
  have hne : ∀ c ∈ natDigits d.intPart ++ '.' :: d.fracChars, c ≠ '$' := by
    intro c hc
    rcases List.mem_append.mp hc with h1 | h1
    · exact isDigit_ne (natDigits_all_digit _ c h1) (by decide)
    · rcases List.mem_cons.mp h1 with h2 | h2
      · subst h2; decide
      · exact isDigit_ne (fracChars_all_digit d c h2) (by decide)
  have hdata : ("$" ++ d.str).data
      = '$' :: (natDigits d.intPart ++ '.' :: d.fracChars) := by
    rw [String.data_append]
    rfl
  unfold price_text_to_float
  rw [hdata]
  have h0 : ('$' :: (natDigits d.intPart ++ '.' :: d.fracChars)).filter
        (fun c => c ≠ '$')
      = (natDigits d.intPart ++ '.' :: d.fracChars).filter (fun c => c ≠ '$') := by
    simp
  rw [h0, filter_eq_self_of_ne_dollar _ hne,
    pyFloat_digits_dot_digits _ _ (natDigits_ne_nil _) (natDigits_all_digit _)
      (fracChars_all_digit d),
    digitsToNat_natDigits]
  rfl

/-- Claim C3: for every non-negative integer `n` and non-empty suffix text
`s`, the review-count step of `get_product` (split the ratings text on
spaces, convert the first token to an integer) applied to `f"{n} {s}"`
recovers exactly `n`. -/
theorem review_count_roundtrip (n : Nat) (s : String) (hs : s ≠ "") :
    ratings_text_to_int (natRepr n ++ " " ++ s) = some ((n : Nat) : Int) := by
  have hnospace : ∀ c ∈ natDigits n, c ≠ ' ' :=
    fun c hc => isDigit_ne (natDigits_all_digit n c hc) (by decide)
  have hdata : (natRepr n ++ " " ++ s).data = natDigits n ++ ' ' :: s.data := by
    rw [String.data_append, String.data_append]
    simp [natRepr]
  unfold ratings_text_to_int
  rw [hdata, splitOnSpace_append _ _ hnospace]
  show pyInt (natDigits n) = some ((n : Nat) : Int)
  rw [pyInt_all_digits _ (natDigits_ne_nil n) (natDigits_all_digit n),
    digitsToNat_natDigits]

/-- Witness for C3 at `n = 7`, `s = "reviews"`. -/
theorem review_count_roundtrip_witness :
    ("reviews" : String) ≠ ""
      ∧ ratings_text_to_int (natRepr 7 ++ " " ++ "reviews")
          = some ((7 : Nat) : Int) :=
  ⟨by decide, review_count_roundtrip 7 "reviews" (by decide)⟩

/-- Claim C4: for every session state and positive target `N`, when the
first `j` iterations each see fewer than `N` rendered cards with the
"load more" control present, and at iterate `j` either the count has
reached `N` or the control can no longer be located, the pagination loop
performs exactly `j` clicks — none in an iteration whose count is already
`≥ N` — and returns normally (`some`, not an error) with the control's
absence treated as termination. -/
theorem pagination_stops_at_target_or_missing_control {σ : Type}
    (E : PageEnv σ) (N : Nat) (hN : 0 < N) (s : σ) (j fuel : Nat)
    (hrun : ∀ i < j, cardCount E (E.clickMore^[i] s) < N
      ∧ E.hasButton (E.clickMore^[i] s) = true)
    (hstop : N ≤ cardCount E (E.clickMore^[j] s)
      ∨ E.hasButton (E.clickMore^[j] s) = false)
    (hfuel : j < fuel) :
    execute_more_pagination_script E N fuel s = some (E.clickMore^[j] s, j) := by
  induction j generalizing s fuel with
  | zero =>
    match fuel, hfuel with
    | f + 1, _ =>
      simp only [Function.iterate_zero_apply] at hstop ⊢
      unfold execute_more_pagination_script
      rcases hstop with h | h
      · rw [if_neg (by omega)]
      · by_cases hcnt : cardCount E s < N
        · rw [if_pos hcnt, h]
          simp
        · rw [if_neg hcnt]
  | succ j ih =>
    match fuel, hfuel with
    | f + 1, hf =>
      have h0 := hrun 0 (Nat.succ_pos j)
      simp only [Function.iterate_zero_apply] at h0
      unfold execute_more_pagination_script
      rw [if_pos h0.1, h0.2]
      simp only [if_true]
      have hrun2 : ∀ i < j, cardCount E (E.clickMore^[i] (E.clickMore s)) < N
          ∧ E.hasButton (E.clickMore^[i] (E.clickMore s)) = true := by
        intro i hi
        rw [← Function.iterate_succ_apply]
        exact hrun (i + 1) (by omega)
      have hstop2 : N ≤ cardCount E (E.clickMore^[j] (E.clickMore s))
          ∨ E.hasButton (E.clickMore^[j] (E.clickMore s)) = false := by
        rw [← Function.iterate_succ_apply]
        exact hstop
      rw [ih (E.clickMore s) f hrun2 hstop2 (by omega)]
      simp [Function.iterate_succ_apply]

/-- Claim C5: on a page whose "load more" control is always locatable but
whose activation never increases the rendered card count, with the count
below the target, the pagination loop does not terminate: it exhausts
every fuel bound. -/
theorem pagination_diverges_when_count_stalls {σ : Type} (E : PageEnv σ)
    (N : Nat) (s : σ)
    (hbtn : ∀ t, E.hasButton t = true)
    (hcnt : ∀ t, cardCount E (E.clickMore t) ≤ cardCount E t)
    (hlt : cardCount E s < N) (fuel : Nat) :
    execute_more_pagination_script E N fuel s = none := by
  induction fuel generalizing s with
  | zero => rfl
  | succ f ih =>
    unfold execute_more_pagination_script
    rw [if_pos hlt, hbtn s]
    simp only [if_true]
    rw [ih (E.clickMore s) (lt_of_le_of_lt (hcnt s) hlt)]
    rfl

/-- Claim C6: on a page state exposing exactly 5 rendered cards and no
"load more" control, `parse_product_card` with `max_products = 3` returns
all 5 parsed records in on-page order, not a list truncated to 3. -/
theorem harvest_returns_all_rendered_cards {σ : Type} (E : PageEnv σ)
    (s : σ) (fuel : Nat) (hfuel : 0 < fuel)
    (hcards : (E.cards s).length = 5)
    (hbtn : E.hasButton s = false)
    (ps : List Product)
    (hps : parseAllCards (E.cards s) = some ps) :
    parse_product_card E fuel s 3 = some ps ∧ ps.length = 5 := by
  refine ⟨?_, by rw [parseAllCards_length _ _ hps, hcards]⟩
  match fuel, hfuel with
  | f + 1, _ =>
    have hpag : execute_more_pagination_script E 3 (f + 1) s = some (s, 0) := by
      unfold execute_more_pagination_script
      rw [if_neg (by unfold cardCount; omega)]
    unfold parse_product_card
    simp [hpag, hps]

/-- Claim C7: a target count of zero (the only falsy `int`) causes zero
click actions — the pagination loop with target 0 exits at once without
clicking — and the harvester skips expansion entirely, proceeding with
whatever is already rendered. -/
theorem zero_target_performs_no_expansion {σ : Type} (E : PageEnv σ)
    (s : σ) (fuel : Nat) (hfuel : 0 < fuel) :
    execute_more_pagination_script E 0 fuel s = some (s, 0)
      ∧ parse_product_card E fuel s 0 = parseAllCards (E.cards s) := by
  match fuel, hfuel with
  | f + 1, _ =>
    constructor
    · unfold execute_more_pagination_script
      rw [if_neg (by omega)]
    · unfold parse_product_card
      simp

/-- Claim C8: for every record list, `write_to_csv` produces the header
line `title,description,price,rating,num_of_reviews` first, followed by
exactly one data row per record in the declared field order — `N`
records yield `N + 1` rows. -/
theorem write_to_csv_header_and_row_shape (floatStr : ℚ → String)
    (products : List Product) :
    write_to_csv floatStr products
        = "title,description,price,rating,num_of_reviews"
            :: products.map (fun p => csvLine (productValues floatStr p))
      ∧ (write_to_csv floatStr products).length = products.length + 1 := by
  have hheader : csvLine product_fieldnames
      = "title,description,price,rating,num_of_reviews" := by decide
  constructor
  · unfold write_to_csv
    rw [hheader]
  · simp [write_to_csv]

/-- Claim C9: the orchestrator's trace is the home-page navigation
followed by exactly the six categories of the spec's table, in order
Home, Computers, Laptops, Tablets, Phones, Touch with targets
3, 3, 117, 21, 3, 9 and files `home.csv` … `touch.csv`, each category's
navigation click following the previous category's write unconditionally. -/
theorem get_all_products_matches_spec_categories :
    spec_categories.length = 6
      ∧ get_all_products
          = BrowserEvent.get HOME_URL
              :: spec_categories.flatMap spec_categoryEvents :=
  ⟨rfl, rfl⟩

/-- Claim C10: the price step removes every `'$'` anywhere in the text,
not only a single leading symbol: `"5$"`, `"$$5"` and `"1$2"` parse to
`5.0`, `5.0` and `12.0` rather than failing. -/
theorem price_parse_removes_every_dollar :
    price_text_to_float "5$" = some (5 : ℚ)
      ∧ price_text_to_float "$$5" = some (5 : ℚ)
      ∧ price_text_to_float "1$2" = some (12 : ℚ) := by decide

/-- A concrete card for witness pages: five well-formed sub-elements. -/
def sampleCard : CardElem :=
  { titleAttr := some "T", descriptionText := some "D",
    priceText := some "$5", starCount := 4, ratingsText := some "2 reviews" }

/-- The record `get_product` extracts from `sampleCard`. -/
def sampleProduct : Product :=
  { title := "T", description := "D", price := 5, rating := 4,
    num_of_reviews := 2 }

/-- Witness page for the pagination claim: the state is the rendered-card
count, each click renders one more card, the control is always present. -/
def growingPage : PageEnv Nat :=
  { cards := fun n => List.replicate n sampleCard,
    hasButton := fun _ => true,
    clickMore := fun n => n + 1 }

/-- Witness page whose "load more" control is always present but whose
click never adds a card. -/
def stalledPage : PageEnv Unit :=
  { cards := fun _ => [],
    hasButton := fun _ => true,
    clickMore := fun _ => () }

/-- Witness page exposing five well-formed cards and no "load more"
control. -/
def fiveCardPage : PageEnv Unit :=
  { cards := fun _ => List.replicate 5 sampleCard,
    hasButton := fun _ => false,
    clickMore := fun _ => () }

/-- Witness for C4: target 2 starting from 0 cards, one card per click —
two clicks happen, then the loop stops. -/
theorem pagination_stops_witness :
    execute_more_pagination_script growingPage 2 3 0
      = some (growingPage.clickMore^[2] 0, 2) :=
  pagination_stops_at_target_or_missing_control growingPage 2 (by decide)
    0 2 3 (by decide) (by decide) (by decide)

/-- Witness for C5: an always-present control over an empty page, target
1 — five units of fuel are exhausted without returning. -/
theorem pagination_diverges_witness :
    execute_more_pagination_script stalledPage 1 5 () = none :=
  pagination_diverges_when_count_stalls stalledPage 1 () (fun _ => rfl)
    (fun _ => Nat.le.refl) (by decide) 5

/-- Witness for C6: the five-card page harvested with target 3 yields all
five sample records. -/
theorem harvest_all_cards_witness :
    parse_product_card fiveCardPage 1 () 3
        = some (List.replicate 5 sampleProduct)
      ∧ (List.replicate 5 sampleProduct).length = 5 :=
  harvest_returns_all_rendered_cards fiveCardPage () 1 (by decide) (by decide)
    rfl (List.replicate 5 sampleProduct) (by decide)

/-- Witness for C7: target 0 on the stalled page clicks nothing and
harvests the (empty) rendered content. -/
theorem zero_target_witness :
    execute_more_pagination_script stalledPage 0 1 () = some ((), 0)
      ∧ parse_product_card stalledPage 1 () 0
          = parseAllCards (stalledPage.cards ()) :=
  zero_target_performs_no_expansion stalledPage () 1 (by decide)
